import Mathlib

/-!
Shallow embedding of the BatchColorRenderer Blender addon
(`src/__init__.py`) together with theorems settling the frozen claims
about its specification.

Modelling conventions:
* `FloatVectorProperty` color channels are modelled as exact rationals;
  the addon never computes with them, it only stores and copies them.
* Blender's material registry (`bpy.data.materials`) is a list of
  `Material` values; lookup by name is a first-match search (Blender
  keeps material names unique).
* `CollectionProperty` values are lists; `IntProperty` indices are `Nat`
  (Python's `max(0, i - 1)` on a nonnegative `i` coincides with
  truncated subtraction `i - 1`).
* The external render engine is a parameter `engine : Nat → Bool`
  telling whether the i-th render invocation returns normally; the
  engine reads scene state and writes a file at the current output
  path, and it does not itself mutate the output-path setting.
* Raising an exception (`StopIteration` from `next`, an engine error
  from `bpy.ops.render.render`) aborts the execute loop; the `Outcome`
  of a run records how it ended.
-/

namespace BatchColorRenderer

/-- One RGBA quadruple, channels in `[0,1]`, default opaque white
(`FloatVectorProperty(size=4, default=(1.0, 1.0, 1.0, 1.0))`). -/
structure RGBA where
  r : ℚ
  g : ℚ
  b : ℚ
  a : ℚ
deriving DecidableEq, Repr

/-- The default color of a freshly added `ColorItem`: opaque white. -/
def defaultColor : RGBA := ⟨1, 1, 1, 1⟩

/-- Python `class ColorItem(PropertyGroup)`: wraps a single color property. -/
structure ColorItem where
  color : RGBA
deriving DecidableEq, Repr

/-- A `ColorItem` with all properties at their declared defaults. -/
def defaultColorItem : ColorItem := ⟨defaultColor⟩

/-- One node of a material's node tree: its `type` tag and the value
sitting on `outputs[0].default_value` (only read/written for RGB
nodes). -/
structure SceneNode where
  type : String
  value : RGBA
deriving DecidableEq, Repr

/-- A Blender material as seen by the addon: its name, the
`use_nodes` flag, and `node_tree.nodes` in declared order. -/
structure Material where
  name : String
  use_nodes : Bool
  nodes : List SceneNode
deriving DecidableEq, Repr

/-- Python `class MaterialItem(PropertyGroup)`: a material name (enum), a
collection of colors and the selected color index. -/
structure MaterialItem where
  mat_name : String
  colors : List ColorItem
  color_index : Nat
deriving DecidableEq, Repr

/-- Python `class MasterSettings(PropertyGroup)`: the collection of material
items plus the selected material index. -/
structure MasterSettings where
  materials : List MaterialItem
  mat_index : Nat
deriving DecidableEq, Repr

/-! ## Eligibility filter (`get_color_combinations`, filtering loop) -/

/-- Warning emitted when an eligible-looking material has no RGB node:
`f"No RGB node found in {mat.name}. Skipping material..."`. -/
def warnNoRGB (name : String) : String :=
  "No RGB node found in " ++ name ++ ". Skipping material..."

/-- Warning emitted when the material cannot be resolved or does not
use nodes: `f"Error while reading material {mat_item.mat_name}! Skipping..."`. -/
def warnRead (name : String) : String :=
  "Error while reading material " ++ name ++ "! Skipping..."

/-- The filtering loop of `get_color_combinations`: walks
`settings.materials` in order and collects, for the eligible items,
the copied color list (`mat_item.colors[:]`) and the resolved material
(`bpy.data.materials.get(mat_item.mat_name)`), emitting one warning
per skipped item.  Returns `(color_lists, materials, warnings)`. -/
def filterEligible (registry : List Material) :
    List MaterialItem → List (List ColorItem) × List Material × List String
  | [] => ([], [], [])
  | mi :: rest =>
    let acc := filterEligible registry rest
    match registry.find? (fun m => m.name == mi.mat_name) with
    | some mat =>
      if mat.use_nodes then
        if (mat.nodes.filter (fun n => n.type == "RGB")).isEmpty then
          (acc.1, acc.2.1, warnNoRGB mat.name :: acc.2.2)
        else
          (mi.colors :: acc.1, mat :: acc.2.1, acc.2.2)
      else
        (acc.1, acc.2.1, warnRead mi.mat_name :: acc.2.2)
    | none => (acc.1, acc.2.1, warnRead mi.mat_name :: acc.2.2)

/-! ## Combination generator (`itertools.product`)

`itertools.product` is specified (CPython documentation) as the
left-fold `result = [x+[y] for x in result for y in pool]` over the
input pools, starting from `[[]]`. -/

/-- One step of `itertools.product`:
`result = [x+[y] for x in result for y in pool]`. -/
def addLayer {α : Type} (result : List (List α)) (pool : List α) : List (List α) :=
  result.flatMap (fun x => pool.map (fun y => x ++ [y]))

/-- Embedding of `itertools.product(*pools)` as a list of combinations. -/
def product {α : Type} (pools : List (List α)) : List (List α) :=
  pools.foldl addLayer [[]]

/-- Method `get_color_combinations`: filter the settings against the registry,
then take the cartesian product of the eligible color lists.  Returns
`(combos, materials, warnings)`. -/
def getColorCombinations (registry : List Material) (settings : MasterSettings) :
    List (List ColorItem) × List Material × List String :=
  let r := filterEligible registry settings.materials
  (product r.1, r.2.1, r.2.2)

/-! ## Batch render driver (`BATCH_COLORS_OT_render_batch.execute`) -/

/-- Python's `f"{count:03d}"` digits: decimal rendering left-padded
with zeros to a minimum width of three. -/
def pad3 (n : Nat) : String :=
  if n < 10 then "00" ++ toString n
  else if n < 100 then "0" ++ toString n
  else toString n

/-- Embedding of `next(node for node in mat.node_tree.nodes if node.type=='RGB')`
followed by `rgb_node.outputs[0].default_value = color`: overwrite the
value of the first RGB node; `none` models the `StopIteration` raised
by `next` when no RGB node exists. -/
def setFirstRGBNodes : List SceneNode → RGBA → Option (List SceneNode)
  | [], _ => none
  | n :: rest, c =>
    if n.type == "RGB" then some ({ n with value := c } :: rest)
    else
      (match setFirstRGBNodes rest c with
       | some ns => some (n :: ns)
       | none => none)

/-- The loop `for mat, color_item in zip(materials, combo): ...` — apply each
chosen color to its material's first RGB node, positionally.  Returns
the materials after the performed mutations and whether the whole loop
ran without `StopIteration` (on failure, earlier pairs stay mutated
and later pairs stay untouched, as in Python). -/
def applyCombo : List Material → List ColorItem → List Material × Bool
  | m :: ms, ci :: cs =>
    (match setFirstRGBNodes m.nodes ci.color with
     | none => (m :: ms, false)
     | some ns =>
       let rest := applyCombo ms cs
       ({ m with nodes := ns } :: rest.1, rest.2))
  | ms, [] => (ms, true)
  | [], _ :: _ => ([], true)

/-- How one run of `execute` ended: the loop completed, the render
engine raised (`EngineFailure`), or `next` raised `StopIteration`. -/
inductive Outcome where
  | finished
  | engineFail
  | stopIter
deriving DecidableEq, Repr

/-- The mutable scene state touched by the execute loop: the captured
eligible materials (aliases of the live registry entries), the shared
output-path setting `scene.render.filepath`, and the files written by
render invocations so far (each recorded at the path current when the
render was invoked). -/
structure ExecSt where
  mats : List Material
  filepath : String
  rendered : List String
deriving DecidableEq, Repr

/-- One iteration of the `for combo in color_combinations` loop:
apply the combination's colors, capture `base_path` from the live
output-path setting, set the suffixed path, invoke the render
(`ok` tells whether the engine returns normally), and on normal return
reset the output path to `base_path`.  The second component is `none`
to continue, or the aborting `Outcome`. -/
def execIter (combo : List ColorItem) (count : Nat) (ok : Bool) (st : ExecSt) :
    ExecSt × Option Outcome :=
  let ap := applyCombo st.mats combo
  if ap.2 then
    let base_path := st.filepath
    let path := base_path ++ "_" ++ pad3 count ++ ".png"
    if ok then
      ({ mats := ap.1, filepath := base_path, rendered := st.rendered ++ [path] },
       none)
    else
      ({ mats := ap.1, filepath := path, rendered := st.rendered },
       some Outcome.engineFail)
  else
    ({ st with mats := ap.1 }, some Outcome.stopIter)

/-- The combination loop of `execute`, with `count` starting at the
given value (0 in the source) and incremented once per combination;
`engine i` tells whether the i-th render invocation returns normally.
An exception aborts the loop with the state as of propagation. -/
def execLoop (engine : Nat → Bool) :
    List (List ColorItem) → Nat → ExecSt → ExecSt × Outcome
  | [], _, st => (st, Outcome.finished)
  | combo :: rest, count, st =>
    (match execIter combo count (engine count) st with
     | (st2, none) => execLoop engine rest (count + 1) st2
     | (st2, some o) => (st2, o))

/-- Method `BATCH_COLORS_OT_render_batch.execute`: compute the combinations
and eligible materials, then run the combination loop with `count = 0`
on the scene's current output path. -/
def executeOp (engine : Nat → Bool) (registry : List Material)
    (settings : MasterSettings) (filepath0 : String) : ExecSt × Outcome :=
  let gc := getColorCombinations registry settings
  execLoop engine gc.1 0 { mats := gc.2.1, filepath := filepath0, rendered := [] }

/-- The message passed to `invoke_confirm` by
`BATCH_COLORS_OT_render_batch.invoke`. -/
def invokeMessage (registry : List Material) (settings : MasterSettings) : String :=
  "Render batch totalling " ++ toString (getColorCombinations registry settings).1.length
    ++ " images (material color combinations)?"

/-- The host's confirmation protocol around the operator: `invoke`
shows `invokeMessage`; the host calls `execute` only when the operator
confirms, and does nothing at all when they decline. -/
def confirmedRun (confirm : Bool) (engine : Nat → Bool) (registry : List Material)
    (settings : MasterSettings) (filepath0 : String) : Option (ExecSt × Outcome) :=
  if confirm then some (executeOp engine registry settings filepath0) else none

/-! ## Add/remove operators (`BATCH_COLORS_OT_add_material`, ...) -/

/-- A freshly added `MaterialItem` before any mutation: empty color
collection, zero index.  (`mat_name` is an `EnumProperty` whose
default identifier is host-determined; its value is irrelevant to
every claim, so the model fixes the empty string.) -/
def newMaterialItem : MaterialItem := { mat_name := "", colors := [], color_index := 0 }

/-- The binding as it stands right after `add_material` finishes: one
default color entry, color index 0. -/
def freshItem : MaterialItem := { mat_name := "", colors := [defaultColorItem], color_index := 0 }

/-- In-place mutation of the item at a given index of a collection
(Python's `collection[i].field = ...`); out-of-range indices touch
nothing. -/
def updateAt {α : Type} : List α → Nat → (α → α) → List α
  | [], _, _ => []
  | x :: xs, 0, f => f x :: xs
  | x :: xs, n + 1, f => x :: updateAt xs n f

/-- Operator `BATCH_COLORS_OT_add_material.execute`: append a new item, select
it, add one default color to it and reset its color index. -/
def addMaterial (s : MasterSettings) : MasterSettings :=
  let ms := s.materials ++ [newMaterialItem]
  let idx := ms.length - 1
  { materials := updateAt ms idx
      (fun it => { it with colors := it.colors ++ [defaultColorItem], color_index := 0 }),
    mat_index := idx }

/-- Operator `BATCH_COLORS_OT_remove_material` defines no `poll`, so the host's
default allows the operator to execute in every state. -/
def pollRemoveMaterial (_ : MasterSettings) : Bool := true

/-- Operator `BATCH_COLORS_OT_remove_material.execute`:
`settings.materials.remove(settings.mat_index)` then
`settings.mat_index = max(0, settings.mat_index - 1)`.  An
out-of-range index reaches the host collection's `remove`; that
host-level error is modelled as `none`. -/
def removeMaterial (s : MasterSettings) : Option MasterSettings :=
  if s.mat_index < s.materials.length then
    some { materials := s.materials.eraseIdx s.mat_index, mat_index := s.mat_index - 1 }
  else none

/-- Operator `BATCH_COLORS_OT_add_color.execute`: add a default color to the
selected material and select it.  Indexing `materials[mat_index]` with
an out-of-range index is a host-level error, modelled as `none`. -/
def addColor (s : MasterSettings) : Option MasterSettings :=
  if s.mat_index < s.materials.length then
    let f := fun (it : MaterialItem) =>
      { it with colors := it.colors ++ [defaultColorItem],
                color_index := it.colors.length }
    some { s with materials := updateAt s.materials s.mat_index f }
  else none

/-- Guard `BATCH_COLORS_OT_remove_color.poll`:
`mat_item.colors and len(mat_item.colors) > 1` (an empty collection is
falsy in Python).  Indexing with an out-of-range `mat_index` raises in
the host; that is modelled as a `false` poll (the action cannot
proceed). -/
def pollRemoveColor (s : MasterSettings) : Bool :=
  match s.materials[s.mat_index]? with
  | some mat_item => !mat_item.colors.isEmpty && decide (1 < mat_item.colors.length)
  | none => false

/-- Operator `BATCH_COLORS_OT_remove_color.execute`: remove the selected color
of the selected material and decrement the color index
(`max(0, i - 1)`). -/
def removeColor (s : MasterSettings) : Option MasterSettings :=
  if s.mat_index < s.materials.length then
    let f := fun (it : MaterialItem) =>
      { it with colors := it.colors.eraseIdx it.color_index,
                color_index := it.color_index - 1 }
    some { s with materials := updateAt s.materials s.mat_index f }
  else none

/-! ## Derived predicates used to state the claims -/

/-- A material with at least one RGB node (a "drivable node"). -/
def hasRGB (m : Material) : Bool :=
  m.nodes.any (fun n => n.type == "RGB")

/-- Eligibility of a binding, following the spec's words: the
referenced material resolves, uses a node graph, and has an RGB-kind
node.  Stated independently of `filterEligible` so the two can be
compared. -/
def eligibleSpec (registry : List Material) (mi : MaterialItem) : Bool :=
  match registry.find? (fun m => m.name == mi.mat_name) with
  | some mat => mat.use_nodes && !(mat.nodes.filter (fun n => n.type == "RGB")).isEmpty
  | none => false

/-- The warning the filter emits for an excluded binding. -/
def warnFor (registry : List Material) (mi : MaterialItem) : String :=
  match registry.find? (fun m => m.name == mi.mat_name) with
  | some mat => if mat.use_nodes then warnNoRGB mat.name else warnRead mi.mat_name
  | none => warnRead mi.mat_name

/-- Well-formedness of the selected indices: each selected index is in
bounds of its list, or 0 when the list is empty. -/
def goodIdx (s : MasterSettings) : Prop :=
  (s.mat_index < s.materials.length ∨ (s.materials = [] ∧ s.mat_index = 0))
  ∧ ∀ mi ∈ s.materials,
      mi.color_index < mi.colors.length ∨ (mi.colors = [] ∧ mi.color_index = 0)

instance (s : MasterSettings) : Decidable (goodIdx s) := by
  unfold goodIdx
  infer_instance

/-- Sample base output path used by the concrete runs below. -/
def basePath : String := "base"

/-! ## Concrete scenes used by counterexamples and witnesses -/

/-- A registry whose only material does not use a node graph. -/
def regNoGraph : List Material := [{ name := "Mat", use_nodes := false, nodes := [] }]

/-- Settings binding that single material to one color. -/
def stgNoGraph : MasterSettings :=
  { materials := [{ mat_name := "Mat", colors := [defaultColorItem], color_index := 0 }],
    mat_index := 0 }

/-- A material whose node tree has exactly one RGB node. -/
def matRGB : Material :=
  { name := "M", use_nodes := true, nodes := [{ type := "RGB", value := defaultColor }] }

/-- A registry with that single drivable material. -/
def regRGB : List Material := [matRGB]

/-- Settings binding `matRGB` to one color. -/
def stgOne : MasterSettings :=
  { materials := [{ mat_name := "M", colors := [defaultColorItem], color_index := 0 }],
    mat_index := 0 }

/-- Settings binding `matRGB` to two colors. -/
def stgTwo : MasterSettings :=
  { materials := [{ mat_name := "M",
                    colors := [defaultColorItem, { color := ⟨0, 0, 0, 1⟩ }],
                    color_index := 0 }],
    mat_index := 0 }

/-- Settings with no bindings at all. -/
def emptySettings : MasterSettings := { materials := [], mat_index := 0 }

/-- Five pairwise distinct color items, used to exhibit the iteration
order of `product`. -/
def cw0 : ColorItem := ⟨⟨0, 0, 0, 1⟩⟩

/-- Second sample color. -/
def cw1 : ColorItem := ⟨⟨1, 0, 0, 1⟩⟩

/-- Third sample color. -/
def cw2 : ColorItem := ⟨⟨0, 1, 0, 1⟩⟩

/-- Fourth sample color. -/
def cw3 : ColorItem := ⟨⟨0, 0, 1, 1⟩⟩

/-- Fifth sample color. -/
def cw4 : ColorItem := ⟨⟨1, 1, 0, 1⟩⟩

/-- Sample input of the combination generator: two color lists of
lengths 2 and 3. -/
def poolsW : List (List ColorItem) := [[cw0, cw1], [cw2, cw3, cw4]]

/-! ## Theorems: the combination generator (`itertools.product`) -/

theorem addLayer_nil {α : Type} (p : List α) : addLayer [] p = [] := rfl

theorem addLayer_cons {α : Type} (x : List α) (r : List (List α)) (p : List α) :
    addLayer (x :: r) p = p.map (fun y => x ++ [y]) ++ addLayer r p := by
  simp [addLayer]

theorem addLayer_append {α : Type} (r1 r2 : List (List α)) (p : List α) :
    addLayer (r1 ++ r2) p = addLayer r1 p ++ addLayer r2 p := by
  simp [addLayer]

theorem foldl_addLayer_nil {α : Type} : ∀ ls : List (List α), List.foldl addLayer [] ls = []
  | [] => rfl
  | p :: ls => by rw [List.foldl_cons, addLayer_nil, foldl_addLayer_nil ls]

theorem foldl_addLayer_append {α : Type} :
    ∀ (ls r1 r2 : List (List α)),
      List.foldl addLayer (r1 ++ r2) ls = List.foldl addLayer r1 ls ++ List.foldl addLayer r2 ls
  | [], r1, r2 => rfl
  | p :: ls, r1, r2 => by
    simp only [List.foldl_cons, addLayer_append]
    exact foldl_addLayer_append ls _ _

theorem addLayer_map_cons {α : Type} (y : α) :
    ∀ (r : List (List α)) (p : List α),
      addLayer (r.map (fun t => y :: t)) p = (addLayer r p).map (fun t => y :: t)
  | [], _ => rfl
  | x :: r, p => by
    simp only [List.map_cons, addLayer_cons, addLayer_map_cons y r, List.map_append,
      List.map_map]
    rfl

theorem foldl_addLayer_map_cons {α : Type} (y : α) :
    ∀ (ls r : List (List α)),
      List.foldl addLayer (r.map (fun t => y :: t)) ls
        = (List.foldl addLayer r ls).map (fun t => y :: t)
  | [], _ => rfl
  | p :: ls, r => by
    simp only [List.foldl_cons, addLayer_map_cons, foldl_addLayer_map_cons y ls]

theorem product_cons {α : Type} (l : List α) (ls : List (List α)) :
    product (l :: ls) = l.flatMap (fun y => (product ls).map (fun t => y :: t)) := by
  show List.foldl addLayer (addLayer [[]] l) ls = _
  have h1 : addLayer [[]] l = l.map (fun y => [y]) := by simp [addLayer]
  rw [h1]
  clear h1
  induction l with
  | nil => simp [foldl_addLayer_nil]
  | cons y l ih =>
    have h2 : ((fun y : α => [y]) y :: l.map (fun y => [y]))
        = ([([] : List α)].map (fun t => y :: t)) ++ l.map (fun y => [y]) := rfl
    rw [List.map_cons, h2, foldl_addLayer_append, foldl_addLayer_map_cons, ih,
      List.flatMap_cons]
    rfl

theorem length_product {α : Type} : ∀ ls : List (List α),
    (product ls).length = (ls.map List.length).prod
  | [] => rfl
  | l :: ls => by
    rw [product_cons, List.map_cons, List.prod_cons, ← length_product ls]
    induction l with
    | nil => simp
    | cons y l ihl =>
      simp only [List.flatMap_cons, List.length_append, List.length_map, List.length_cons,
        ihl, Nat.succ_mul, Nat.add_comm]

theorem length_of_mem_product {α : Type} : ∀ (ls : List (List α)) (c : List α),
    c ∈ product ls → c.length = ls.length
  | [], c, h => by
    simp only [product, List.foldl_nil, List.mem_singleton] at h
    simp [h]
  | l :: ls, c, h => by
    rw [product_cons] at h
    rcases List.mem_flatMap.1 h with ⟨y, _, hc⟩
    rcases List.mem_map.1 hc with ⟨t, ht, rfl⟩
    simp [length_of_mem_product ls t ht]

theorem flatMap_map_cons_getD {α : Type} (d : α) :
    ∀ (l : List α) (m : List (List α)) (i : Nat), i < l.length * m.length →
      (l.flatMap (fun y => m.map (fun t => y :: t))).getD i []
        = l.getD (i / m.length) d :: m.getD (i % m.length) []
  | [], _, i, h => absurd h (by simp)
  | y :: l, m, i, h => by
    have hm : 0 < m.length := by
      rcases Nat.eq_zero_or_pos m.length with h0 | h0
      · rw [h0, Nat.mul_zero] at h; exact absurd h (Nat.not_lt_zero i)
      · exact h0
    rw [List.flatMap_cons]
    by_cases hi : i < m.length
    · rw [List.getD_eq_getElem?_getD,
        List.getElem?_append_left (by simpa using hi),
        List.getElem?_map, List.getElem?_eq_getElem hi, Nat.div_eq_of_lt hi,
        Nat.mod_eq_of_lt hi]
      simp [List.getD_eq_getElem?_getD, List.getElem?_eq_getElem hi]
    · have hle : m.length ≤ i := Nat.le_of_not_lt hi
      have hlt : i - m.length < l.length * m.length := by
        rw [List.length_cons, Nat.succ_mul] at h
        omega
      rw [List.getD_eq_getElem?_getD,
        List.getElem?_append_right (by simpa using hle)]
      have hrec := flatMap_map_cons_getD d l m (i - m.length) hlt
      rw [List.getD_eq_getElem?_getD] at hrec
      simp only [List.length_map] at *
      rw [hrec, Nat.div_eq_sub_div hm hle, Nat.mod_eq_sub_mod hle]
      simp

theorem getD_length_mul_dropProd_dvd {α : Type} :
    ∀ (ls : List (List α)) (j : Nat), j < ls.length →
      ((ls.getD j []).length * ((ls.drop (j + 1)).map List.length).prod)
        ∣ (ls.map List.length).prod
  | [], j, hj => absurd hj (by simp)
  | l :: ls, 0, _ => by
    simp only [List.getD_cons_zero, List.drop_succ_cons, List.drop_zero, List.map_cons,
      List.prod_cons]
    exact dvd_refl _
  | l :: ls, j + 1, h => by
    have hj : j < ls.length := Nat.lt_of_succ_lt_succ (by simpa using h)
    have ih := getD_length_mul_dropProd_dvd ls j hj
    simp only [List.getD_cons_succ, List.drop_succ_cons, List.map_cons, List.prod_cons]
    exact Dvd.dvd.mul_left ih l.length

theorem mod_div_mod_of_mul_dvd (a s L T : Nat) (h : s * L ∣ T) :
    a % T / s % L = a / s % L := by
  rcases Nat.eq_zero_or_pos T with hT | hT
  · subst hT; rw [Nat.mod_zero]
  · have hs : 0 < s := by
      rcases Nat.eq_zero_or_pos s with h0 | h0
      · exfalso
        rw [h0, Nat.zero_mul] at h
        rw [Nat.eq_zero_of_zero_dvd h] at hT
        exact absurd hT (lt_irrefl 0)
      · exact h0
    rcases h with ⟨t, ht⟩
    have ha : a = a % T + s * (L * (t * (a / T))) := by
      conv_lhs => rw [← Nat.mod_add_div a T]
      rw [ht]; ring
    have key : a / s = a % T / s + L * (t * (a / T)) := by
      conv_lhs => rw [ha]
      rw [Nat.add_mul_div_left _ _ hs]
    rw [key, Nat.add_mul_mod_self_left]

theorem product_getD {α : Type} (d : α) :
    ∀ (ls : List (List α)) (i j : Nat),
      i < (ls.map List.length).prod → j < ls.length →
      ((product ls).getD i []).getD j d
        = (ls.getD j []).getD
            (i / ((ls.drop (j + 1)).map List.length).prod % (ls.getD j []).length) d
  | [], _, j, _, hj => absurd hj (by simp)
  | l :: ls, i, j, hi, hj => by
    have hT : (product ls).length = (ls.map List.length).prod := length_product ls
    have hi2 : i < l.length * (product ls).length := by
      rw [hT]
      simpa [List.map_cons, List.prod_cons] using hi
    rw [product_cons, flatMap_map_cons_getD d l (product ls) i hi2]
    have hTpos : 0 < (product ls).length := by
      rcases Nat.eq_zero_or_pos (product ls).length with h0 | h0
      · rw [h0, Nat.mul_zero] at hi2; exact absurd hi2 (Nat.not_lt_zero i)
      · exact h0
    cases j with
    | zero =>
      have hdiv : i / (product ls).length < l.length := (Nat.div_lt_iff_lt_mul hTpos).2 hi2
      simp only [List.getD_cons_zero, List.drop_succ_cons, List.drop_zero, ← hT]
      rw [Nat.mod_eq_of_lt hdiv]
    | succ j =>
      have hj2 : j < ls.length := Nat.lt_of_succ_lt_succ (by simpa using hj)
      have hi3 : i % (product ls).length < (ls.map List.length).prod := by
        rw [← hT]; exact Nat.mod_lt i hTpos
      rw [List.getD_cons_succ, product_getD d ls (i % (product ls).length) j hi3 hj2]
      have hdvd : ((((ls.drop (j + 1)).map List.length).prod) * (ls.getD j []).length)
          ∣ (ls.map List.length).prod := by
        have h2 := getD_length_mul_dropProd_dvd ls j hj2
        rwa [Nat.mul_comm] at h2
      rw [hT, mod_div_mod_of_mul_dvd i _ _ _ hdvd]
      simp


/-! ## Theorems: the eligibility filter -/

theorem filterEligible_eq (registry : List Material) :
    ∀ items : List MaterialItem,
      (filterEligible registry items).1
          = (items.filter (eligibleSpec registry)).map (fun mi => mi.colors)
        ∧ (filterEligible registry items).2.1
          = (items.filter (eligibleSpec registry)).filterMap
              (fun mi => registry.find? (fun m => m.name == mi.mat_name))
        ∧ (filterEligible registry items).2.2
          = (items.filter (fun mi => !eligibleSpec registry mi)).map (warnFor registry)
  | [] => ⟨rfl, rfl, rfl⟩
  | mi :: rest => by
    obtain ⟨h1, h2, h3⟩ := filterEligible_eq registry rest
    cases hf : registry.find? (fun m => m.name == mi.mat_name) with
    | none =>
      simp [filterEligible, eligibleSpec, warnFor, hf, h1, h2, h3]
    | some mat =>
      cases hu : mat.use_nodes with
      | false => simp [filterEligible, eligibleSpec, warnFor, hf, hu, h1, h2, h3]
      | true =>
        cases he : (mat.nodes.filter (fun n => n.type == "RGB")).isEmpty with
        | true => simp [filterEligible, eligibleSpec, warnFor, hf, hu, he, h1, h2, h3]
        | false => simp [filterEligible, eligibleSpec, warnFor, hf, hu, he, h1, h2, h3]

theorem hasRGB_of_filter_not_isEmpty (m : Material)
    (h : (m.nodes.filter (fun n => n.type == "RGB")).isEmpty = false) :
    hasRGB m = true := by
  have hne : m.nodes.filter (fun n => n.type == "RGB") ≠ [] := by
    intro hnil
    rw [hnil] at h
    simp at h
  obtain ⟨x, hx⟩ := List.exists_mem_of_ne_nil _ hne
  obtain ⟨hx1, hx2⟩ := List.mem_filter.1 hx
  exact List.any_eq_true.2 ⟨x, hx1, hx2⟩

theorem hasRGB_of_mem_filterEligible (registry : List Material)
    (items : List MaterialItem) (m : Material)
    (h : m ∈ (filterEligible registry items).2.1) : hasRGB m = true := by
  rw [(filterEligible_eq registry items).2.1] at h
  rcases List.mem_filterMap.1 h with ⟨mi, hmi, hfind⟩
  have helig : eligibleSpec registry mi = true := (List.mem_filter.1 hmi).2
  unfold eligibleSpec at helig
  rw [hfind] at helig
  simp only [Bool.and_eq_true, Bool.not_eq_true'] at helig
  exact hasRGB_of_filter_not_isEmpty m helig.2

/-! ## Theorems: applying a combination to the node graphs -/

theorem setFirstRGBNodes_types (c : RGBA) :
    ∀ ns ns2, setFirstRGBNodes ns c = some ns2 →
      ns2.map (fun n => n.type) = ns.map (fun n => n.type)
  | [], _, h => by simp [setFirstRGBNodes] at h
  | n :: rest, ns2, h => by
    cases ht : (n.type == "RGB") with
    | true =>
      unfold setFirstRGBNodes at h
      rw [ht] at h
      simp only [if_true, Option.some.injEq] at h
      subst h
      simp
    | false =>
      unfold setFirstRGBNodes at h
      rw [ht] at h
      simp only [Bool.false_eq_true, if_false] at h
      cases hrec : setFirstRGBNodes rest c with
      | none => rw [hrec] at h; simp at h
      | some a =>
        rw [hrec] at h
        simp only [Option.some.injEq] at h
        subst h
        simp [setFirstRGBNodes_types c rest a hrec]

theorem setFirstRGBNodes_isSome (c : RGBA) :
    ∀ ns, ns.any (fun n => n.type == "RGB") = true →
      (setFirstRGBNodes ns c).isSome = true
  | [], h => by simp at h
  | n :: rest, h => by
    cases ht : (n.type == "RGB") with
    | true => simp [setFirstRGBNodes, ht]
    | false =>
      have h2 : rest.any (fun n => n.type == "RGB") = true := by
        rw [List.any_cons, ht, Bool.false_or] at h
        exact h
      have hrec2 := setFirstRGBNodes_isSome c rest h2
      cases hsf : setFirstRGBNodes rest c with
      | none => rw [hsf] at hrec2; simp at hrec2
      | some a => simp [setFirstRGBNodes, ht, hsf]

theorem any_rgb_congr_types :
    ∀ {ns ms : List SceneNode},
      ns.map (fun n => n.type) = ms.map (fun n => n.type) →
      ns.any (fun n => n.type == "RGB") = ms.any (fun n => n.type == "RGB")
  | [], [], _ => rfl
  | [], _ :: _, h => by simp at h
  | _ :: _, [], h => by simp at h
  | n :: ns, m :: ms, h => by
    simp only [List.map_cons, List.cons.injEq] at h
    simp only [List.any_cons, h.1, any_rgb_congr_types h.2]

theorem hasRGB_congr_types {m m2 : Material}
    (h : m2.nodes.map (fun n => n.type) = m.nodes.map (fun n => n.type)) :
    hasRGB m2 = hasRGB m := by
  unfold hasRGB
  exact any_rgb_congr_types h

theorem applyCombo_ok :
    ∀ (mats : List Material) (combo : List ColorItem),
      (∀ m ∈ mats, hasRGB m = true) →
      (applyCombo mats combo).2 = true
      ∧ ∀ m ∈ (applyCombo mats combo).1, hasRGB m = true
  | mats, [], h => by
    cases mats with
    | nil => exact ⟨rfl, h⟩
    | cons m ms => exact ⟨rfl, h⟩
  | [], ci :: cs, _ => by
    refine ⟨rfl, ?_⟩
    intro m hm
    exact absurd hm (by simp [applyCombo])
  | m :: ms, ci :: cs, h => by
    have hm := h m (by simp)
    have hsome := setFirstRGBNodes_isSome ci.color m.nodes (by simpa [hasRGB] using hm)
    obtain ⟨ns, hns⟩ := Option.isSome_iff_exists.1 hsome
    have htypes := setFirstRGBNodes_types ci.color m.nodes ns hns
    have htail := applyCombo_ok ms cs (fun x hx => h x (by simp [hx]))
    simp only [applyCombo, hns]
    refine ⟨htail.1, ?_⟩
    intro x hx
    rcases List.mem_cons.1 hx with rfl | hx2
    · rw [hasRGB_congr_types (m := m) (by simpa using htypes)]
      exact hm
    · exact htail.2 x hx2


/-! ## Theorems: the combination loop -/

theorem execIter_ok_eq (combo : List ColorItem) (count : Nat) (st : ExecSt)
    (h : (applyCombo st.mats combo).2 = true) :
    execIter combo count true st
      = ({ mats := (applyCombo st.mats combo).1, filepath := st.filepath,
           rendered := st.rendered ++ [st.filepath ++ "_" ++ pad3 count ++ ".png"] },
         none) := by
  simp [execIter, h]

theorem execIter_fail_eq (combo : List ColorItem) (count : Nat) (st : ExecSt)
    (h : (applyCombo st.mats combo).2 = true) :
    execIter combo count false st
      = ({ mats := (applyCombo st.mats combo).1,
           filepath := st.filepath ++ "_" ++ pad3 count ++ ".png",
           rendered := st.rendered },
         some Outcome.engineFail) := by
  simp [execIter, h]

theorem execIter_filepath (combo : List ColorItem) (count : Nat) (ok : Bool)
    (s : ExecSt) :
    (execIter combo count ok s).1.filepath = s.filepath
    ∨ (execIter combo count ok s).1.filepath
        = s.filepath ++ "_" ++ pad3 count ++ ".png" := by
  unfold execIter
  cases hap : (applyCombo s.mats combo).2 with
  | false => left; simp [hap]
  | true =>
    cases ok with
    | true => left; simp [hap]
    | false => right; simp [hap]

theorem execLoop_success (engine : Nat → Bool) (he : ∀ i, engine i = true) :
    ∀ (combos : List (List ColorItem)) (count : Nat) (st : ExecSt),
      (∀ m ∈ st.mats, hasRGB m = true) →
      (execLoop engine combos count st).2 = Outcome.finished
      ∧ (execLoop engine combos count st).1.filepath = st.filepath
      ∧ (execLoop engine combos count st).1.rendered
          = st.rendered ++ (List.range' count combos.length).map
              (fun i => st.filepath ++ "_" ++ pad3 i ++ ".png")
  | [], count, st, _ => by simp [execLoop]
  | combo :: rest, count, st, hm => by
    have hap := applyCombo_ok st.mats combo hm
    have hiter := execIter_ok_eq combo count st hap.1
    have hrec := execLoop_success engine he rest (count + 1)
      ({ mats := (applyCombo st.mats combo).1, filepath := st.filepath,
         rendered := st.rendered ++ [st.filepath ++ "_" ++ pad3 count ++ ".png"] })
      (fun m hmm => hap.2 m hmm)
    simp only [execLoop, he count, hiter]
    refine ⟨hrec.1, hrec.2.1, ?_⟩
    rw [hrec.2.2]
    simp [List.range'_succ, List.append_assoc]

theorem execLoop_not_stopIter (engine : Nat → Bool) :
    ∀ (combos : List (List ColorItem)) (count : Nat) (st : ExecSt),
      (∀ m ∈ st.mats, hasRGB m = true) →
      (execLoop engine combos count st).2 ≠ Outcome.stopIter
  | [], count, st, _ => by simp [execLoop]
  | combo :: rest, count, st, hm => by
    have hap := applyCombo_ok st.mats combo hm
    cases hok : engine count with
    | true =>
      have hiter := execIter_ok_eq combo count st hap.1
      simp only [execLoop, hok, hiter]
      exact execLoop_not_stopIter engine rest (count + 1) _ (fun m hmm => hap.2 m hmm)
    | false =>
      have hiter := execIter_fail_eq combo count st hap.1
      simp only [execLoop, hok, hiter]
      simp


/-! ## Theorems: the add/remove operators -/

theorem updateAt_append_singleton {α : Type} (f : α → α) :
    ∀ (xs : List α) (x : α), updateAt (xs ++ [x]) xs.length f = xs ++ [f x]
  | [], x => rfl
  | y :: xs, x => by
    simp only [List.cons_append, List.length_cons, updateAt, List.append_eq,
      updateAt_append_singleton f xs x]

theorem length_updateAt {α : Type} (f : α → α) :
    ∀ (xs : List α) (n : Nat), (updateAt xs n f).length = xs.length
  | [], _ => rfl
  | _ :: xs, 0 => by simp [updateAt]
  | _ :: xs, n + 1 => by simp [updateAt, length_updateAt f xs n]

theorem mem_updateAt {α : Type} (f : α → α) :
    ∀ (xs : List α) (n : Nat) (y : α), y ∈ updateAt xs n f →
      y ∈ xs ∨ ∃ h : n < xs.length, y = f (xs.get ⟨n, h⟩)
  | [], n, y, h => absurd h (by simp [updateAt])
  | x :: xs, 0, y, h => by
    rcases List.mem_cons.1 h with rfl | h2
    · right
      exact ⟨by simp, rfl⟩
    · left
      exact List.mem_cons_of_mem x h2
  | x :: xs, n + 1, y, h => by
    rcases List.mem_cons.1 h with rfl | h2
    · left
      simp
    · rcases mem_updateAt f xs n y h2 with h3 | ⟨hlt, hy⟩
      · left
        simp [h3]
      · right
        exact ⟨by simpa using Nat.succ_lt_succ hlt, by simpa using hy⟩

theorem addMaterial_materials (s : MasterSettings) :
    (addMaterial s).materials
      = s.materials ++ [{ mat_name := "", colors := [defaultColorItem], color_index := 0 }]
    ∧ (addMaterial s).mat_index = s.materials.length := by
  unfold addMaterial
  have hlen : (s.materials ++ [newMaterialItem]).length - 1 = s.materials.length := by
    simp
  constructor
  · simp only [hlen, updateAt_append_singleton]
    rfl
  · simp [hlen]


/-! ## Remaining helper lemmas -/

theorem setFirstRGBNodes_none (c : RGBA) :
    ∀ ns : List SceneNode, (∀ n ∈ ns, ¬n.type = "RGB") → setFirstRGBNodes ns c = none
  | [], _ => rfl
  | n :: rest, h => by
    have hn : (n.type == "RGB") = false := beq_eq_false_iff_ne.2 (h n (by simp))
    have hrec : setFirstRGBNodes rest c = none :=
      setFirstRGBNodes_none c rest (fun x hx => h x (List.mem_cons_of_mem n hx))
    unfold setFirstRGBNodes
    rw [hn, hrec]
    simp

theorem executeOp_eq (engine : Nat → Bool) (registry : List Material)
    (settings : MasterSettings) (fp : String) :
    executeOp engine registry settings fp
      = execLoop engine (getColorCombinations registry settings).1 0
          { mats := (getColorCombinations registry settings).2.1,
            filepath := fp, rendered := [] } := rfl

theorem getColorCombinations_fst (registry : List Material) (settings : MasterSettings) :
    (getColorCombinations registry settings).1
      = product (filterEligible registry settings.materials).1 := rfl

/-! ## The claims -/

/-- C3: for every ordered list of eligible color lists with lengths
`L1..LN`, `itertools.product` yields exactly `L1 × ... × LN`
combinations; every combination has exactly one color per input list;
and the i-th combination's j-th component is the
`i / (L(j+1) × ... × LN) % Lj`-th entry of the j-th list — so the last
list's entries vary fastest and the first list's slowest.  The
generator is a pure function of its input, so repeated generation
yields the identical sequence. -/
theorem c3_product_spec (d : ColorItem) (ls : List (List ColorItem)) :
    (product ls).length = (ls.map List.length).prod
    ∧ (∀ c ∈ product ls, c.length = ls.length)
    ∧ (∀ i j : Nat, i < (ls.map List.length).prod → j < ls.length →
        ((product ls).getD i []).getD j d
          = (ls.getD j []).getD
              (i / ((ls.drop (j + 1)).map List.length).prod % (ls.getD j []).length) d) :=
  ⟨length_product ls, fun c hc => length_of_mem_product ls c hc,
   fun i j hi hj => product_getD d ls i j hi hj⟩

/-- Witness for C3 at the concrete pools `[[cw0, cw1], [cw2, cw3, cw4]]`:
the combination at index 4 has second component `cw3` (the last list
varies fastest: index 4 is `[cw1, cw3]`). -/
theorem c3_product_spec_witness :
    (4 < (poolsW.map List.length).prod ∧ 1 < poolsW.length)
    ∧ ((product poolsW).getD 4 []).getD 1 cw0
        = (poolsW.getD 1 []).getD
            (4 / ((poolsW.drop 2).map List.length).prod % (poolsW.getD 1 []).length) cw0 :=
  ⟨⟨by decide, by decide⟩, (c3_product_spec cw0 poolsW).2.2 4 1 (by decide) (by decide)⟩

/-- C6: the eligibility filter excludes exactly the bindings that are
not `eligibleSpec` (material unresolvable, not using nodes, or without
an RGB node), emits one warning per excluded binding, and includes all
other bindings — color lists and resolved materials — preserving their
relative order.  The filter is a pure function of the registry and the
settings: it returns its outputs without mutating `MasterSettings`
(the source assigns nothing to `settings`). -/
theorem c6_filter_spec (registry : List Material) (settings : MasterSettings) :
    (filterEligible registry settings.materials).1
        = (settings.materials.filter (eligibleSpec registry)).map (fun mi => mi.colors)
    ∧ (filterEligible registry settings.materials).2.1
        = (settings.materials.filter (eligibleSpec registry)).filterMap
            (fun mi => registry.find? (fun m => m.name == mi.mat_name))
    ∧ (filterEligible registry settings.materials).2.2
        = (settings.materials.filter (fun mi => !eligibleSpec registry mi)).map
            (warnFor registry) :=
  filterEligible_eq registry settings.materials

/-- C8: `invoke` presents the total planned render count — provably the
product `L1 × ... × LN` of the eligible color-list lengths — in the
confirmation message, and a declined confirmation runs nothing at all:
`execute` is never entered, so there are zero node mutations, zero
output-path writes and zero render invocations. -/
theorem c8_confirm_gate (registry : List Material) (settings : MasterSettings)
    (engine : Nat → Bool) (filepath0 : String) :
    invokeMessage registry settings
      = "Render batch totalling "
          ++ toString (((filterEligible registry settings.materials).1.map List.length).prod)
          ++ " images (material color combinations)?"
    ∧ confirmedRun false engine registry settings filepath0 = none := by
  constructor
  · unfold invokeMessage
    rw [getColorCombinations_fst, length_product]
  · rfl

/-- C10: in `execute` the drivable node is re-resolved per
(material, combination) pair by `setFirstRGBNodes` — the embedding of
the unguarded `next(...)` first-match lookup over the material's live
node list, whose error branch (`none`, i.e. `StopIteration`) is real:
it fires on any node list without an RGB node.  Because the loop runs
synchronously on the filter's own output (the node graphs are unchanged
since filtering) and color writes preserve node types, the lookup
succeeds for every eligible material and the `StopIteration` outcome is
unreachable, whatever the engine does. -/
theorem c10_node_lookup (engine : Nat → Bool) (registry : List Material)
    (settings : MasterSettings) (filepath0 : String) :
    (executeOp engine registry settings filepath0).2 ≠ Outcome.stopIter
    ∧ ∀ (ns : List SceneNode) (c : RGBA),
        (∀ n ∈ ns, ¬n.type = "RGB") → setFirstRGBNodes ns c = none := by
  constructor
  · rw [executeOp_eq]
    exact execLoop_not_stopIter engine _ 0 _
      (fun m hm => hasRGB_of_mem_filterEligible registry settings.materials m hm)
  · exact fun ns c h => setFirstRGBNodes_none c ns h

/-- Witness for C10: a concrete run that does not end in
`StopIteration`, and a concrete RGB-free node list on which the
unguarded lookup's error branch fires. -/
theorem c10_node_lookup_witness :
    (executeOp (fun _ => true) regRGB stgOne basePath).2 ≠ Outcome.stopIter
    ∧ setFirstRGBNodes [{ type := "VALUE", value := defaultColor }] defaultColor = none :=
  ⟨(c10_node_lookup (fun _ => true) regRGB stgOne basePath).1,
   (c10_node_lookup (fun _ => true) regRGB stgOne basePath).2
     [{ type := "VALUE", value := defaultColor }] defaultColor (by decide)⟩

/-- C4: when every render invocation returns normally (and, as the
model fixes, nothing external mutates the output-path setting), the
output-path setting after the whole batch equals its pre-batch value
exactly.  Moreover each iteration captures `base_path` from the state
it actually receives — for an arbitrary mid-loop state `s` the
iteration's final path is `s.filepath` (restored) or `s.filepath`
plus that iteration's suffix — i.e. `base_path` is re-read from live
state per iteration, not cached before the loop. -/
theorem c4_filepath_restored (engine : Nat → Bool) (registry : List Material)
    (settings : MasterSettings) (filepath0 : String)
    (he : ∀ i, engine i = true) :
    (executeOp engine registry settings filepath0).1.filepath = filepath0
    ∧ ∀ (combo : List ColorItem) (count : Nat) (ok : Bool) (s : ExecSt),
        (execIter combo count ok s).1.filepath = s.filepath
        ∨ (execIter combo count ok s).1.filepath
            = s.filepath ++ "_" ++ pad3 count ++ ".png" := by
  constructor
  · rw [executeOp_eq]
    exact (execLoop_success engine he _ 0 _
      (fun m hm => hasRGB_of_mem_filterEligible registry settings.materials m hm)).2.1
  · exact execIter_filepath

/-- Witness for C4: a fully successful concrete batch of two
combinations leaves the output path at its pre-batch value. -/
theorem c4_filepath_restored_witness :
    (∀ i : Nat, (fun _ : Nat => true) i = true)
    ∧ (executeOp (fun _ => true) regRGB stgTwo basePath).1.filepath = basePath :=
  ⟨fun _ => rfl,
   (c4_filepath_restored (fun _ => true) regRGB stgTwo basePath (fun _ => rfl)).1⟩

/-- C5: in a batch where every render returns normally, the files are
written exactly at `filepath0 ++ "_" ++ pad3 i ++ ".png"` for
`i = 0, 1, ..., K-1` in order (`List.range' 0 K`), i.e. the index
suffix is the zero-padded 3-digit rendering of the 0-based combination
index, increasing by exactly one per combination; and in general each
iteration's render happens at the per-iteration captured base path
plus that suffix. -/
theorem c5_output_paths (engine : Nat → Bool) (registry : List Material)
    (settings : MasterSettings) (filepath0 : String)
    (he : ∀ i, engine i = true) :
    (executeOp engine registry settings filepath0).1.rendered
      = (List.range' 0 (getColorCombinations registry settings).1.length).map
          (fun i => filepath0 ++ "_" ++ pad3 i ++ ".png")
    ∧ ∀ (combo : List ColorItem) (count : Nat) (s : ExecSt),
        (applyCombo s.mats combo).2 = true →
        (execIter combo count true s).1.rendered
          = s.rendered ++ [s.filepath ++ "_" ++ pad3 count ++ ".png"] := by
  constructor
  · rw [executeOp_eq]
    have h := execLoop_success engine he (getColorCombinations registry settings).1 0
      { mats := (getColorCombinations registry settings).2.1,
        filepath := filepath0, rendered := [] }
      (fun m hm => hasRGB_of_mem_filterEligible registry settings.materials m hm)
    rw [h.2.2]
    simp
  · intro combo count s h
    rw [execIter_ok_eq combo count s h]

/-- Witness for C5: the concrete two-combination batch writes
`base_000.png` then `base_001.png`. -/
theorem c5_output_paths_witness :
    (∀ i : Nat, (fun _ : Nat => true) i = true)
    ∧ (executeOp (fun _ => true) regRGB stgTwo basePath).1.rendered
        = (List.range' 0 (getColorCombinations regRGB stgTwo).1.length).map
            (fun i => basePath ++ "_" ++ pad3 i ++ ".png") :=
  ⟨fun _ => rfl,
   (c5_output_paths (fun _ => true) regRGB stgTwo basePath (fun _ => rfl)).1⟩


/-- C1: evaluation of the code at the spec's own scenario (one binding
whose material does not use a node graph, hence zero eligible
materials).  The filter excludes the binding and emits one warning,
but `itertools.product()` of zero lists yields the single empty
combination, so the combination count is `1`, not `0`, and the execute
loop performs exactly one render (of the untouched scene) instead of
none. -/
theorem c1_zero_eligible_one_render :
    (getColorCombinations regNoGraph stgNoGraph).2.1 = []
    ∧ (getColorCombinations regNoGraph stgNoGraph).2.2.length = 1
    ∧ (getColorCombinations regNoGraph stgNoGraph).1.length = 1
    ∧ (executeOp (fun _ => true) regNoGraph stgNoGraph basePath).1.rendered
        = [basePath ++ "_000.png"]
    ∧ (executeOp (fun _ => true) regNoGraph stgNoGraph basePath).2
        = Outcome.finished := by
  refine ⟨rfl, rfl, rfl, ?_, rfl⟩
  decide

/-- C2 counterexample: one eligible material with one color, and a
render engine that raises on the first invocation.  The failure
propagates with the output-path setting still holding the suffixed
per-combination path — the restoration line is skipped because the
source has no `try`/`finally` around the render call. -/
theorem c2_no_restore_on_engine_failure :
    (executeOp (fun _ => false) regRGB stgOne basePath).2 = Outcome.engineFail
    ∧ (executeOp (fun _ => false) regRGB stgOne basePath).1.filepath
        = basePath ++ "_000.png"
    ∧ (executeOp (fun _ => false) regRGB stgOne basePath).1.filepath ≠ basePath := by
  refine ⟨rfl, by decide, by decide⟩

/-- C2 (amended): the output-path setting is restored to the
combination's captured `base_path` immediately after the render call
returns normally; when the render invocation raises, no restoration
happens — the setting retains the constructed suffixed path as the
engine failure propagates. -/
theorem c2_restore_after_normal_return (combo : List ColorItem) (count : Nat)
    (s : ExecSt) (h : (applyCombo s.mats combo).2 = true) :
    (execIter combo count true s).1.filepath = s.filepath
    ∧ (execIter combo count false s).1.filepath
        = s.filepath ++ "_" ++ pad3 count ++ ".png"
    ∧ (execIter combo count false s).2 = some Outcome.engineFail := by
  rw [execIter_ok_eq combo count s h, execIter_fail_eq combo count s h]
  exact ⟨rfl, rfl, rfl⟩

/-- Witness for the amended C2 at a concrete iteration state. -/
theorem c2_restore_witness :
    (applyCombo (⟨[], basePath, []⟩ : ExecSt).mats []).2 = true
    ∧ (execIter [] 0 true ⟨[], basePath, []⟩).1.filepath = basePath :=
  ⟨rfl, (c2_restore_after_normal_return [] 0 ⟨[], basePath, []⟩ rfl).1⟩

/-- C7: every material binding's color list is nonempty from
initialization on: `add_material` appends a binding holding exactly
one default color entry (existing bindings untouched); the
`remove_color` poll rejects the action whenever the selected binding
has at most one color; and the nonemptiness invariant is preserved by
all four operators (for `remove_color`, under its poll guard). -/
theorem c7_color_list_invariant (s : MasterSettings) :
    ((addMaterial s).materials.map (fun mi => mi.colors)
        = s.materials.map (fun mi => mi.colors) ++ [[defaultColorItem]])
    ∧ (∀ mi : MaterialItem, s.materials[s.mat_index]? = some mi →
        mi.colors.length ≤ 1 → pollRemoveColor s = false)
    ∧ ((∀ mi ∈ s.materials, mi.colors ≠ []) →
        (∀ mi ∈ (addMaterial s).materials, mi.colors ≠ [])
        ∧ (∀ s2, removeMaterial s = some s2 → ∀ mi ∈ s2.materials, mi.colors ≠ [])
        ∧ (∀ s2, addColor s = some s2 → ∀ mi ∈ s2.materials, mi.colors ≠ [])
        ∧ (pollRemoveColor s = true →
            ∀ s2, removeColor s = some s2 → ∀ mi ∈ s2.materials, mi.colors ≠ [])) := by
  refine ⟨?_, ?_, ?_⟩
  · rw [(addMaterial_materials s).1]
    simp
  · intro mi hmi hle
    unfold pollRemoveColor
    rw [hmi]
    have h1 : ¬(1 < mi.colors.length) := by omega
    simp [h1]
  · intro hall
    refine ⟨?_, ?_, ?_, ?_⟩
    · intro mi hmi
      rw [(addMaterial_materials s).1] at hmi
      rcases List.mem_append.1 hmi with h1 | h2
      · exact hall mi h1
      · simp only [List.mem_singleton] at h2
        subst h2
        simp [defaultColorItem]
    · intro s2 hs2 mi hmi
      simp only [removeMaterial] at hs2
      by_cases h : s.mat_index < s.materials.length
      · rw [if_pos h] at hs2
        simp only [Option.some.injEq] at hs2
        subst hs2
        exact hall mi (List.eraseIdx_subset _ _ hmi)
      · rw [if_neg h] at hs2
        exact absurd hs2 (by simp)
    · intro s2 hs2 mi hmi
      simp only [addColor] at hs2
      by_cases h : s.mat_index < s.materials.length
      · rw [if_pos h] at hs2
        simp only [Option.some.injEq] at hs2
        subst hs2
        rcases mem_updateAt _ _ _ _ hmi with h1 | ⟨hlt, hy⟩
        · exact hall mi h1
        · rw [hy]
          simp
      · rw [if_neg h] at hs2
        exact absurd hs2 (by simp)
    · intro hpoll s2 hs2 mi hmi
      unfold pollRemoveColor at hpoll
      cases hsel : s.materials[s.mat_index]? with
      | none =>
        rw [hsel] at hpoll
        simp at hpoll
      | some sel =>
        rw [hsel] at hpoll
        simp only [Bool.and_eq_true, decide_eq_true_eq] at hpoll
        obtain ⟨hidx, hget⟩ := List.getElem?_eq_some.1 hsel
        simp only [removeColor] at hs2
        rw [if_pos hidx] at hs2
        simp only [Option.some.injEq] at hs2
        subst hs2
        rcases mem_updateAt _ _ _ _ hmi with h1 | ⟨hlt, hy⟩
        · exact hall mi h1
        · have hgeteq : s.materials.get ⟨s.mat_index, hlt⟩ = sel := by
            simp only [List.get_eq_getElem]
            exact hget
          rw [hy, hgeteq]
          have hlen := List.le_length_eraseIdx sel.colors sel.color_index
          have hpos : 0 < (sel.colors.eraseIdx sel.color_index).length := by
            have h2 := hpoll.2
            omega
          simpa using List.length_pos.mp hpos

/-- Witness for C7: in the state reached by adding one material to the
empty settings, the single binding has exactly the default color and
the remove-color action polls false. -/
theorem c7_color_list_invariant_witness :
    (addMaterial emptySettings).materials[(addMaterial emptySettings).mat_index]?
        = some freshItem
    ∧ freshItem.colors.length ≤ 1
    ∧ pollRemoveColor (addMaterial emptySettings) = false :=
  ⟨by decide, by decide,
   (c7_color_list_invariant (addMaterial emptySettings)).2.1 freshItem
     (by decide) (by decide)⟩

/-- C9 counterexample: `remove_material` has no poll, so the host's
default lets it execute on empty settings, where the removal index 0
is out of bounds for the empty materials list — the remove action is
not prevented, contradicting the claim. -/
theorem c9_remove_material_unguarded :
    pollRemoveMaterial emptySettings = true
    ∧ emptySettings.materials.length = 0
    ∧ removeMaterial emptySettings = none :=
  ⟨rfl, rfl, rfl⟩

/-- C9 (amended): `remove_color` is poll-guarded and its removal
indices are in bounds whenever the poll passes on a well-indexed
state, but `remove_material` is unguarded (its poll is constantly
true, see the counterexample) and relies on the host to reject the
out-of-range removal.  Every operator execution that succeeds from a
well-indexed state yields a well-indexed state: selected indices stay
within bounds of their lists, or 0 on an empty list. -/
theorem c9_guarded_indices (s : MasterSettings) (hgood : goodIdx s) :
    goodIdx (addMaterial s)
    ∧ (∀ s2, removeMaterial s = some s2 → goodIdx s2)
    ∧ (∀ s2, addColor s = some s2 → goodIdx s2)
    ∧ (pollRemoveColor s = true →
        s.mat_index < s.materials.length
        ∧ (∀ mi, s.materials[s.mat_index]? = some mi →
            mi.color_index < mi.colors.length)
        ∧ ∀ s2, removeColor s = some s2 → goodIdx s2) := by
  obtain ⟨hidx0, hmem0⟩ := hgood
  refine ⟨?_, ?_, ?_, ?_⟩
  · constructor
    · left
      rw [(addMaterial_materials s).2, (addMaterial_materials s).1]
      simp
    · intro mi hmi
      rw [(addMaterial_materials s).1] at hmi
      rcases List.mem_append.1 hmi with h1 | h2
      · exact hmem0 mi h1
      · simp only [List.mem_singleton] at h2
        subst h2
        left
        simp
  · intro s2 hs2
    simp only [removeMaterial] at hs2
    by_cases h : s.mat_index < s.materials.length
    · rw [if_pos h] at hs2
      simp only [Option.some.injEq] at hs2
      subst hs2
      have hlen : (s.materials.eraseIdx s.mat_index).length = s.materials.length - 1 :=
        List.length_eraseIdx_of_lt h
      constructor
      · by_cases h1 : s.materials.length = 1
        · right
          constructor
          · have h0 : (s.materials.eraseIdx s.mat_index).length = 0 := by omega
            exact List.length_eq_zero.1 h0
          · show s.mat_index - 1 = 0
            omega
        · left
          show s.mat_index - 1 < (s.materials.eraseIdx s.mat_index).length
          rw [hlen]
          omega
      · intro mi hmi
        exact hmem0 mi (List.eraseIdx_subset _ _ hmi)
    · rw [if_neg h] at hs2
      exact absurd hs2 (by simp)
  · intro s2 hs2
    simp only [addColor] at hs2
    by_cases h : s.mat_index < s.materials.length
    · rw [if_pos h] at hs2
      simp only [Option.some.injEq] at hs2
      subst hs2
      constructor
      · left
        show s.mat_index < (updateAt s.materials s.mat_index _).length
        rw [length_updateAt]
        exact h
      · intro mi hmi
        rcases mem_updateAt _ _ _ _ hmi with h1 | ⟨hlt, hy⟩
        · exact hmem0 mi h1
        · rw [hy]
          left
          simp
    · rw [if_neg h] at hs2
      exact absurd hs2 (by simp)
  · intro hpoll
    unfold pollRemoveColor at hpoll
    cases hsel : s.materials[s.mat_index]? with
    | none =>
      rw [hsel] at hpoll
      simp at hpoll
    | some sel =>
      rw [hsel] at hpoll
      simp only [Bool.and_eq_true, decide_eq_true_eq] at hpoll
      obtain ⟨hidx, hget⟩ := List.getElem?_eq_some.1 hsel
      have hselmem : sel ∈ s.materials := by
        rw [← hget]
        exact List.getElem_mem _
      have hci : sel.color_index < sel.colors.length := by
        rcases hmem0 sel hselmem with h1 | ⟨hnil, _⟩
        · exact h1
        · rw [hnil] at hpoll
          have h2 := hpoll.2
          simp at h2
      refine ⟨hidx, ?_, ?_⟩
      · intro mi hmi
        simp only [Option.some.injEq] at hmi
        subst hmi
        exact hci
      · intro s2 hs2
        simp only [removeColor] at hs2
        rw [if_pos hidx] at hs2
        simp only [Option.some.injEq] at hs2
        subst hs2
        constructor
        · left
          show s.mat_index < (updateAt s.materials s.mat_index _).length
          rw [length_updateAt]
          exact hidx
        · intro mi hmi
          rcases mem_updateAt _ _ _ _ hmi with h1 | ⟨hlt, hy⟩
          · exact hmem0 mi h1
          · have hgeteq : s.materials.get ⟨s.mat_index, hlt⟩ = sel := by
              simp only [List.get_eq_getElem]
              exact hget
            rw [hy, hgeteq]
            left
            have hlen := List.length_eraseIdx_of_lt hci
            show sel.color_index - 1 < (sel.colors.eraseIdx sel.color_index).length
            rw [hlen]
            have h2 := hpoll.2
            omega

/-- Witness for the amended C9: adding a material to the empty
settings preserves well-indexedness. -/
theorem c9_guarded_indices_witness :
    goodIdx (addMaterial emptySettings)
    ∧ goodIdx (addMaterial (addMaterial emptySettings)) :=
  ⟨by decide, (c9_guarded_indices (addMaterial emptySettings) (by decide)).1⟩

end BatchColorRenderer
